import Mathlib

/-!
Shallow embedding of the hierarchical unseen-species estimator in
`ThinkStats/species.py` (classes `Species`, `Species2` .. `Species6`,
`OversampledDirichlet`), together with theorems settling the frozen claims.

Conventions of the embedding:
* numpy float arrays become `List ℚ` (exact arithmetic in place of IEEE doubles);
  numpy int arrays become `List ℕ`.
* the pseudo-random Gamma variates drawn by `numpy.random.gamma(params)` are
  supplied as explicit inputs (`gammas : List ℚ`, or a stream of such lists,
  one per Monte-Carlo iteration), so every function is deterministic.
* the log-domain pipeline `log_likes = log(ps)*data; log_likes -= max;
  exp(log_likes)` is embedded by its exact real-arithmetic value: since
  `exp` and `log` are inverse monotone bijections on positives, the pipeline
  computes `raw_n / max_k raw_k` where `raw_n = prod_i ps_n[i]^data[i]`.
* division by zero in `ℚ` yields 0 where numpy would produce NaN entries
  (silently, with at most a runtime warning); neither raises an error.
* the helper module `thinkbayes` is not part of this repository; every
  definition taken from it is marked `Modelled from the spec:` in its
  doc comment and follows the specification text.
-/

namespace ThinkStats

/-- Running prefix sums, the embedding of `numpy.cumsum`:
`cumsum [a,b,c] = [a, a+b, a+b+c]`. -/
def cumsum (l : List ℚ) : List ℚ :=
  (List.range l.length).map (fun i => ((l.take (i+1)).sum))

/-- Entry `i` of the cumulative sum (0 when out of range). -/
def cumsumAt (l : List ℚ) (i : ℕ) : ℚ := (cumsum l).getD i 0

/-- Elementwise sum of two vectors (numpy `+` on equal-length arrays). -/
def vecAdd (a b : List ℚ) : List ℚ := List.zipWith (· + ·) a b

/-- Elementwise product of two vectors (numpy `*` on equal-length arrays). -/
def vecMul (a b : List ℚ) : List ℚ := List.zipWith (· * ·) a b

/-- Vector divided by the sum of its entries (`v /= v.sum()`).
With exact rationals `0/0 = 0`; numpy would produce NaN entries silently. -/
def normalize (v : List ℚ) : List ℚ := v.map (· / v.sum)

/-- Maximum entry of a list of rationals (numpy `max`), 0 on the empty list. -/
def listMax : List ℚ → ℚ
  | [] => 0
  | [x] => x
  | x :: y :: l => max x (listMax (y :: l))

/-- The loop `like = zeros(len); for i in range(k): like += f(i)`:
sum of `k` sampled vectors starting from `z`. -/
def sumSamples (k : ℕ) (f : ℕ → List ℚ) (z : List ℚ) : List ℚ :=
  (List.range k).foldl (fun acc i => vecAdd acc (f i)) z

/-- The statement `params[:m] += data` (with `m = data.length`): add `data`
elementwise into the first `m` entries, keep the rest. -/
def addCounts : List ℕ → List ℕ → List ℕ
  | ps, [] => ps
  | [], _ :: _ => []
  | p :: ps, d :: ds => (p + d) :: addCounts ps ds

/-- The statement `params[i] += c`: increment one entry in place. -/
def bump (l : List ℕ) (i c : ℕ) : List ℕ := l.set i (l.getD i 0 + c)

/-- The numpy idiom `one = zeros(i+1); one[i] = c`. -/
def oneVec (i c : ℕ) : List ℕ := List.replicate i 0 ++ [c]

/-- Modelled from the spec: `thinkbayes.Beta` is a Beta distribution carried by
its two shape parameters. -/
structure BetaDist where
  alpha : ℤ
  beta : ℤ
deriving DecidableEq

/-- The stabilization `log_likes -= max(log_likes); likes = exp(log_likes)`
in exact arithmetic: divide every raw (already exponentiated) likelihood by
the largest one. -/
def logNormalize (raws : List ℚ) : List ℚ := raws.map (· / listMax raws)

/-!  ## Species2 (flattened/vectorized variant; state shared by Species3 and Species5) -/

/-- State of `Species2` (also used by its subclasses `Species3` and `Species5`):
candidate values `ns`, the outer weight array `probs`, the single shared
concentration array `params` (numpy int array of length `ns[-1]`), and the
configured Monte-Carlo iteration count. -/
structure Species2State where
  ns : List ℕ
  probs : List ℚ
  params : List ℕ
  iterations : ℕ
deriving DecidableEq

/-- `Species2.__init__(ns, iterations)`: uniform outer weights (numpy `ones`),
flat concentration array `ones(ns[-1])`. -/
def species2Init (ns : List ℕ) (iterations : ℕ) : Species2State :=
  { ns := ns
    probs := List.replicate ns.length 1
    params := List.replicate (ns.getLastD 0) 1
    iterations := iterations }

/-- Exact value of the per-candidate raw likelihood inside
`Species2.SampleLikelihood`: with `row = gammas[:m]`, `col = cumsum(gammas)`,
`ps = row / col[n-1]`, the exponential of `sum(log(ps) * data)` is
`prod_i (gammas[i] / cumsum[n-1]) ^ data[i]`. -/
def species2Raw (gammas : List ℚ) (data : List ℕ) (n : ℕ) : ℚ :=
  ((List.range data.length).map
    (fun i => (gammas.getD i 0 / cumsumAt gammas (n - 1)) ^ (data.getD i 0))).prod

/-- `Species2.SampleLikelihood(data)` for one Gamma draw: raw likelihood per
candidate, stabilized by the max log-likelihood, then multiplied by the
binomial coefficients `C(n, m)`. -/
def species2SampleLikelihood (ns : List ℕ) (data : List ℕ) (gammas : List ℚ) : List ℚ :=
  List.zipWith (fun like n => like * (Nat.choose n data.length : ℚ))
    (logNormalize (ns.map (species2Raw gammas data))) ns

/-- The accumulated likelihood vector of `Species2.Update`: the loop is
`for i in range(1000): like += self.SampleLikelihood(data)` — the bound is the
hard-coded literal `1000`, not `self.iterations`. -/
def species2LikeSum (st : Species2State) (data : List ℕ) (draws : ℕ → List ℚ) : List ℚ :=
  sumSamples 1000 (fun i => species2SampleLikelihood st.ns data (draws i))
    (List.replicate st.ns.length 0)

/-- `Species2.Update(data)`: accumulate sampled likelihoods, multiply into the
outer weights, renormalize, then `params[:m] += data`. -/
def species2Update (st : Species2State) (data : List ℕ) (draws : ℕ → List ℚ) :
    Species2State :=
  { st with
    probs := normalize (vecMul st.probs (species2LikeSum st data draws))
    params := addCounts st.params data }

/-- `Species2.MarginalBeta(n, index)`: `Beta(params[index], sum(params[:n]) - params[index])`. -/
def species2MarginalBeta (st : Species2State) (n index : ℕ) : BetaDist :=
  let alpha0 : ℤ := ((st.params.take n).sum : ℤ)
  let alpha : ℤ := (st.params.getD index 0 : ℤ)
  ⟨alpha, alpha0 - alpha⟩

/-- Modelled from the spec: `Species2.DistOfN` packages the candidate values with
their current outer weights (`thinkbayes.MakePmfFromDict(dict(zip(ns, probs)))`,
`thinkbayes` not being in the repository). -/
def species2DistOfN (st : Species2State) : List (ℕ × ℚ) := st.ns.zip st.probs

/-!  ## Species3 (vectorized update honoring the iteration count) -/

/-- `Species3.SampleLikelihood(data)`: the fully vectorized computation.
For candidate `n`, the corresponding row of `array = row / col[:, newaxis]`
with `col = cumsum(gammas)[ns[0]-1:]` is `row / cumsum[n-1]`, so per candidate
the value coincides with `Species2.SampleLikelihood` (the code requires `ns`
to be the contiguous range `ns[0] .. ns[-1]` with `ns[-1] = len(params)` for
the numpy shapes to line up). -/
def species3SampleLikelihood : List ℕ → List ℕ → List ℚ → List ℚ :=
  species2SampleLikelihood

/-- `Species3.Update(data)`: same shape as `Species2.Update` but the
Monte-Carlo loop bound is `self.iterations` rather than the literal 1000. -/
def species3Update (st : Species2State) (data : List ℕ) (draws : ℕ → List ℚ) :
    Species2State :=
  { st with
    probs := normalize (vecMul st.probs
      (sumSamples st.iterations (fun i => species3SampleLikelihood st.ns data (draws i))
        (List.replicate st.ns.length 0)))
    params := addCounts st.params data }

/-!  ## Species5 (incremental one-category-at-a-time, flattened state) -/

/-- Per-candidate raw likelihood inside `Species5.SampleLikelihood(m, count)`:
`ps = gammas[m-1] / sums` with `sums = cumsum(gammas)[ns[0]-1:]`, so candidate
`n` gets `(gammas[m-1] / cumsum[n-1]) ^ count` (the exact exponential of
`log(ps) * count`). -/
def species5Raw (gammas : List ℚ) (m count : ℕ) (n : ℕ) : ℚ :=
  (gammas.getD (m - 1) 0 / cumsumAt gammas (n - 1)) ^ count

/-- `Species5.SampleLikelihood(m, count)` for one Gamma draw: per-candidate raw
likelihoods stabilized by the max log-likelihood; no binomial coefficients. -/
def species5SampleLikelihood (ns : List ℕ) (m count : ℕ) (gammas : List ℚ) : List ℚ :=
  logNormalize (ns.map (species5Raw gammas m count))

/-- The corrected likelihood vector of `Species5.UpdateOne`: sampled likelihoods
accumulated over `self.iterations` draws, then multiplied elementwise by the
unseen-species factors `[n - m + 1 for n in ns]`. -/
def species5CorrectedLikes (st : Species2State) (m count : ℕ) (draws : ℕ → List ℚ) :
    List ℚ :=
  List.zipWith (fun like (n : ℕ) => like * ((n : ℚ) - (m : ℚ) + 1))
    (sumSamples st.iterations (fun i => species5SampleLikelihood st.ns m count (draws i))
      (List.replicate st.ns.length 0))
    st.ns

/-- `Species5.UpdateOne(m, count)`: multiply the corrected likelihoods into the
outer weights and renormalize; the concentration array is not touched here. -/
def species5UpdateOne (st : Species2State) (m count : ℕ) (draws : ℕ → List ℚ) :
    Species2State :=
  { st with probs := normalize (vecMul st.probs (species5CorrectedLikes st m count draws)) }

/-- `Species5.Update(data)`: the loop
`for i in range(m): self.UpdateOne(i+1, data[i]); self.params[i] += data[i]`. -/
def species5Update (st : Species2State) (data : List ℕ) (draws : ℕ → ℕ → List ℚ) :
    Species2State :=
  (List.range data.length).foldl
    (fun s i =>
      let s2 := species5UpdateOne s (i + 1) (data.getD i 0) (draws i)
      { s2 with params := bump s2.params i (data.getD i 0) }) st

/-!  ## Species (baseline per-N variant) and the thinkbayes suite -/

/-- `thinkbayes.Dirichlet` as used by `Species`: a candidate count `n` and the
concentration array. Modelled from the spec: the module is not in the
repository; the spec describes a length-`n` vector initialized to all ones
and updated by adding observed counts. -/
structure Dirichlet where
  n : ℕ
  params : List ℕ
deriving DecidableEq

/-- Modelled from the spec: `thinkbayes.Dirichlet(n)` starts from the flat
prior `ones(n)`. -/
def dirichletInit (n : ℕ) : Dirichlet := ⟨n, List.replicate n 1⟩

/-- Modelled from the spec: `thinkbayes.Dirichlet.Likelihood(data)` draws one
Gamma vector, normalizes it by its sum into a simplex sample `ps`, and
evaluates the multinomial probability `prod_i ps[i] ^ data[i]` of the
observed counts; the draw is passed in explicitly here. -/
def dirichletLikelihood (data : List ℕ) (gammas : List ℚ) : ℚ :=
  ((List.range data.length).map
    (fun i => (gammas.getD i 0 / gammas.sum) ^ (data.getD i 0))).prod

/-- `Species.Likelihood(hypo, data)`: the loop
`like = 0; for i in range(self.iterations): like += dirichlet.Likelihood(data)`
followed by `like *= BinomialCoef(dirichlet.n, m)`; note the draws are summed,
not averaged. -/
def speciesLikelihood (iterations : ℕ) (d : Dirichlet) (data : List ℕ)
    (draws : ℕ → List ℚ) : ℚ :=
  (((List.range iterations).map (fun i => dirichletLikelihood data (draws i))).sum)
    * (Nat.choose d.n data.length : ℚ)

/-- State of `Species` (and `Species4`): the outer suite pairing each
Dirichlet hypothesis with its weight, plus the iteration count. -/
structure SpeciesState where
  hypos : List (Dirichlet × ℚ)
  iterations : ℕ

/-- Modelled from the spec: `thinkbayes.Suite.Update` multiplies each
hypothesis's weight by its likelihood, then renormalizes the weights so they
sum to 1. -/
def suiteUpdate (hypos : List (Dirichlet × ℚ)) (like : Dirichlet → ℚ) :
    List (Dirichlet × ℚ) :=
  let weighted := hypos.map (fun dp => (dp.1, dp.2 * like dp.1))
  let total := (weighted.map Prod.snd).sum
  weighted.map (fun dp => (dp.1, dp.2 / total))

/-- `Species.Update(data)`: the parent-class update (reweighting via
`Species.Likelihood`) followed by `hypo.Update(data)` on every Dirichlet
hypothesis. Randomness is supplied per candidate `n` and per iteration. -/
def speciesUpdate (st : SpeciesState) (data : List ℕ) (draws : ℕ → ℕ → List ℚ) :
    SpeciesState :=
  let reweighted := suiteUpdate st.hypos
    (fun d => speciesLikelihood st.iterations d data (draws d.n))
  { st with hypos :=
      reweighted.map (fun dp => ({ dp.1 with params := addCounts dp.1.params data }, dp.2)) }

/-- `Species.DistOfN()`: the weight of every candidate `n`. -/
def speciesDistOfN (st : SpeciesState) : List (ℕ × ℚ) :=
  st.hypos.map (fun dp => (dp.1.n, dp.2))

/-!  ## Species4 (incremental one-category-at-a-time, per-N models) -/

/-- `Species4.Likelihood(hypo, data)`: draws are summed as in
`Species.Likelihood`, but the correction factor is the unseen-species count
`dirichlet.n - m + 1` (Python int arithmetic, hence the `ℚ`-valued cast). -/
def species4Likelihood (iterations : ℕ) (d : Dirichlet) (data : List ℕ)
    (draws : ℕ → List ℚ) : ℚ :=
  (((List.range iterations).map (fun i => dirichletLikelihood data (draws i))).sum)
    * ((d.n : ℚ) - (data.length : ℚ) + 1)

/-- One pass of the loop body of `Species4.Update`: `Species.Update(self, one)`
with `self.Likelihood` resolving to `Species4.Likelihood`. -/
def species4UpdateStep (st : SpeciesState) (one : List ℕ) (draws : ℕ → ℕ → List ℚ) :
    SpeciesState :=
  let reweighted := suiteUpdate st.hypos
    (fun d => species4Likelihood st.iterations d one (draws d.n))
  { st with hypos :=
      reweighted.map (fun dp => ({ dp.1 with params := addCounts dp.1.params one }, dp.2)) }

/-- `Species4.Update(data)`: the loop
`for i in range(m): one = zeros(i+1); one[i] = data[i]; Species.Update(self, one)`. -/
def species4Update (st : SpeciesState) (data : List ℕ) (draws : ℕ → ℕ → ℕ → List ℚ) :
    SpeciesState :=
  (List.range data.length).foldl
    (fun s i => species4UpdateStep s (oneVec i (data.getD i 0)) (draws i)) st

/-!  ## Claim-side transcriptions for C3 (written from the claim's wording) -/

/-- Claim C3's reading of one incremental step of the flattened variant at
step `m` (the `m`-th category revealed, with count `count`): the accumulated
likelihood of every candidate N is multiplied by the unseen-species correction
factor `(N - m + 1)`; after that reweighting — and only after it — the
concentration state is updated, and only at the single revealed coordinate. -/
def claimStep5 (st : Species2State) (m count : ℕ) (draws : ℕ → List ℚ) : Species2State :=
  let base := sumSamples st.iterations
      (fun i => species5SampleLikelihood st.ns m count (draws i))
      (List.replicate st.ns.length 0)
  let corrected := List.zipWith (fun (n : ℕ) like => ((n : ℚ) - (m : ℚ) + 1) * like) st.ns base
  let reweighted := { st with probs := normalize (vecMul st.probs corrected) }
  { reweighted with params := bump reweighted.params (m - 1) count }

/-- Claim C3's reading of `Species5.Update`: the batch is processed one
observed category at a time, step `m = i + 1` handling `data[i]`. -/
def claimUpdate5 (st : Species2State) (data : List ℕ) (draws : ℕ → ℕ → List ℚ) :
    Species2State :=
  (List.range data.length).foldl
    (fun s i => claimStep5 s (i + 1) (data.getD i 0) (draws i)) st

/-- Claim C3's reading of one incremental step of the per-N variant at step
`m = i + 1`: the likelihood of candidate N is the accumulated Monte-Carlo
likelihood of the single revealed category multiplied by `(N - m + 1)`; after
the reweighting each hypothesis's concentration vector is bumped only at the
revealed coordinate, by that category's count. -/
def claimStep4 (st : SpeciesState) (i count : ℕ) (draws : ℕ → ℕ → List ℚ) : SpeciesState :=
  let reweighted := suiteUpdate st.hypos (fun d =>
    (((List.range st.iterations).map
      (fun j => dirichletLikelihood (oneVec i count) (draws d.n j))).sum)
      * ((d.n : ℚ) - ((i : ℚ) + 1) + 1))
  { st with hypos :=
      reweighted.map (fun dp => ({ dp.1 with params := bump dp.1.params i count }, dp.2)) }

/-- Claim C3's reading of `Species4.Update`. -/
def claimUpdate4 (st : SpeciesState) (data : List ℕ) (draws : ℕ → ℕ → ℕ → List ℚ) :
    SpeciesState :=
  (List.range data.length).foldl
    (fun s i => claimStep4 s i (data.getD i 0) (draws i)) st

/-!  ## OversampledDirichlet (importance-restricted sampling) -/

/-- Modelled from the spec: the (unnormalized) Beta density
`x^(alpha-1) * (1-x)^(beta-1)`; the shape parameters in this development are
positive naturals, so truncated subtraction is exact. -/
def betaPdf (a b : ℕ) (x : ℚ) : ℚ := x ^ (a - 1) * (1 - x) ^ (b - 1)

/-- Modelled from the spec: `thinkbayes.Beta.MakePmf` — the Beta density
discretized on the uniform grid `i / (steps - 1)` and normalized into a
probability table kept in value order (the code calls it with the default
`steps = 101`). -/
def betaMakePmf (a b : ℕ) (steps : ℕ) : List (ℚ × ℚ) :=
  let xs := (List.range steps).map (fun i => (i : ℚ) / ((steps : ℚ) - 1))
  let raw := xs.map (fun x => (x, betaPdf a b x))
  let total := (raw.map Prod.snd).sum
  raw.map (fun vw => (vw.1, vw.2 / total))

/-- Modelled from the spec: `Percentile(p)` by an accumulated cumulative-weight
scan in value order — the first value whose cumulative weight reaches `p/100`. -/
def percentileScan (target : ℚ) (acc : ℚ) : List (ℚ × ℚ) → ℚ
  | [] => 0
  | vw :: rest => if target ≤ acc + vw.2 then vw.1 else percentileScan target (acc + vw.2) rest

/-- Percentile of a discretized table, `p` given in percent. -/
def pmfPercentile (pmf : List (ℚ × ℚ)) (p : ℚ) : ℚ := percentileScan (p / 100) 0 pmf

/-- `OversampledDirichlet.MakeMarginals(params)`: the Beta shape parameters
`(x, total - x)` of every coordinate's marginal. -/
def makeMarginals (params : List ℕ) : List (ℕ × ℕ) :=
  params.map (fun x => (x, params.sum - x))

/-- Helper for `MakeConditionals`: walk `params[:-1]`, shrinking the running
total stick mass as each coordinate is consumed. -/
def makeConditionalsAux : ℕ → List ℕ → List (ℕ × ℕ)
  | _, [] => []
  | _, [_] => []
  | total, x :: y :: rest => (x, total - x) :: makeConditionalsAux (total - x) (y :: rest)

/-- `OversampledDirichlet.MakeConditionals(params)`: the stick-breaking
conditional Beta parameters, one per coordinate except the last. -/
def makeConditionals (params : List ℕ) : List (ℕ × ℕ) :=
  makeConditionalsAux params.sum params

/-- `OversampledDirichlet.TrimMarginal(pmf, low, high)`: remove the values
outside `[low, high]`; `Normalize` then divides the remaining weights by
their total and returns that total (modelled from the spec: the retained
probability mass becomes the coordinate's inclusion factor). -/
def trimMarginal (pmf : List (ℚ × ℚ)) (low high : ℚ) : ℚ × List (ℚ × ℚ) :=
  let kept := pmf.filter (fun vw => !(decide (vw.1 < low) || decide (high < vw.1)))
  let total := (kept.map Prod.snd).sum
  (total, kept.map (fun vw => (vw.1, vw.2 / total)))

/-- State of `OversampledDirichlet`: the Dirichlet data plus the restricted
stick-breaking conditional tables and the importance weight. In Python the
last two attributes do not exist until `Peek` assigns them; they are modelled
with inert defaults. -/
structure OversampledDirichlet where
  n : ℕ
  params : List ℕ
  conditionals : List (List (ℚ × ℚ))
  weight : ℚ
deriving DecidableEq

/-- `OversampledDirichlet(n)`: flat Dirichlet parameters (thinkbayes
constructor), placeholder conditionals and weight. -/
def oversampledInit (n : ℕ) : OversampledDirichlet :=
  ⟨n, List.replicate n 1, [], 1⟩

/-- `OversampledDirichlet.TrimMarginals(data)`: compute the would-be posterior
parameters `params + data` (on a copy, without committing), their marginal
Betas and 2nd/98th percentiles, then trim each stored prior conditional table
to its coordinate's bounds, accumulating the product of retained masses into
`weight` (the code finally re-packages the trimmed tables as Cdfs for
sampling; the tables carry the same information). -/
def trimMarginals (d : OversampledDirichlet) (data : List ℕ) : OversampledDirichlet :=
  let params := addCounts d.params data
  let posteriors := makeMarginals params
  let lows := posteriors.map (fun ab => pmfPercentile (betaMakePmf ab.1 ab.2 101) 2)
  let highs := posteriors.map (fun ab => pmfPercentile (betaMakePmf ab.1 ab.2 101) 98)
  let trimmed := (d.conditionals.zip (lows.zip highs)).map
      (fun t => trimMarginal t.1 t.2.1 t.2.2)
  { d with
    weight := trimmed.foldl (fun acc mt => acc * mt.1) 1
    conditionals := trimmed.map Prod.snd }

/-- `OversampledDirichlet.Peek(data)`: build the prior stick-breaking
conditional tables from the current `params`, store them, then trim against
the would-be posterior. -/
def oversampledPeek (d : OversampledDirichlet) (data : List ℕ) : OversampledDirichlet :=
  let priors := makeConditionals d.params
  let pmfs := priors.map (fun ab => betaMakePmf ab.1 ab.2 101)
  trimMarginals { d with conditionals := pmfs } data

/-- `OversampledDirichlet.Likelihood(data)`: the plain Dirichlet Monte-Carlo
likelihood scaled by the stored importance weight. -/
def oversampledLikelihood (d : OversampledDirichlet) (data : List ℕ) (gammas : List ℚ) : ℚ :=
  dirichletLikelihood data gammas * d.weight

/-!  ## Claim-side transcriptions for C4 (written from the claim's wording) -/

/-- Claim C4's reading of an inclusion factor: the probability mass retained
when a table is truncated to the values inside `[low, high]`. -/
def retainedMass (pmf : List (ℚ × ℚ)) (low high : ℚ) : ℚ :=
  ((pmf.filter (fun vw => decide (low ≤ vw.1) && decide (vw.1 ≤ high))).map Prod.snd).sum

/-- Claim C4's reading of the overall importance weight: the product, over the
stick-breaking prior conditional tables of `params`, of the mass retained when
each table is truncated to the 2nd-98th percentile interval of the
corresponding would-be posterior marginal computed from `params + data`. -/
def claimImportanceWeight (params : List ℕ) (data : List ℕ) : ℚ :=
  let priorTables := (makeConditionals params).map (fun ab => betaMakePmf ab.1 ab.2 101)
  let posteriors := makeMarginals (addCounts params data)
  let lows := posteriors.map (fun ab => pmfPercentile (betaMakePmf ab.1 ab.2 101) 2)
  let highs := posteriors.map (fun ab => pmfPercentile (betaMakePmf ab.1 ab.2 101) 98)
  ((priorTables.zip (lows.zip highs)).map
      (fun t => retainedMass t.1 t.2.1 t.2.2)).prod

/-!  ## Species6 (restricted-sampling outer suite) -/

/-- The Python error raised when `Species.Likelihood` reads the attribute
`self.iterations` that `Species6.__init__` never assigned. -/
def attrErrorMsg : String := "AttributeError: iterations"

/-- State of `Species6`: `OversampledDirichlet` hypotheses with their outer
weights; `iterations` is `Option`-valued because the constructor never sets
the attribute. -/
structure Species6State where
  hypos : List (OversampledDirichlet × ℚ)
  iterations : Option ℕ

/-- `Species6.__init__(ns)`: one `OversampledDirichlet` per candidate, handed
to `thinkbayes.Suite.__init__`; no iteration count is accepted and
`self.iterations` is never assigned. Modelled from the spec: initial outer
weights are uniform. -/
def species6Init (ns : List ℕ) : Species6State :=
  { hypos := ns.map (fun n => (oversampledInit n, 1)), iterations := none }

/-- `Species.Likelihood` as dispatched from `Species6`: the loop bound
`self.iterations` is read before any draw is taken, so a missing attribute
raises immediately; otherwise draws of `OversampledDirichlet.Likelihood` are
summed and scaled by `BinomialCoef(n, m)`. -/
def species6LikelihoodE (iterations : Option ℕ) (d : OversampledDirichlet)
    (data : List ℕ) (draws : ℕ → List ℚ) : Except String ℚ :=
  match iterations with
  | none => .error attrErrorMsg
  | some k => .ok ((((List.range k).map
      (fun i => oversampledLikelihood d data (draws i))).sum)
        * (Nat.choose d.n data.length : ℚ))

/-- Left-to-right effectful map over a list, stopping at the first error: the
embedding of a Python `for` loop whose body may raise. -/
def exceptMapList {α β : Type} (f : α → Except String β) : List α → Except String (List β)
  | [] => .ok []
  | a :: l =>
    match f a with
    | .error e => .error e
    | .ok b =>
      match exceptMapList f l with
      | .error e => .error e
      | .ok bs => .ok (b :: bs)

/-- `Species6.Update(data)`: `Peek` every hypothesis at the batch, then the
parent-class `Suite.Update` (which evaluates every hypothesis's likelihood and
renormalizes the outer weights), then update every hypothesis's concentration
parameters with the full batch. -/
def species6Update (st : Species6State) (data : List ℕ) (draws : ℕ → ℕ → List ℚ) :
    Except String Species6State :=
  let peeked := st.hypos.map (fun dp => (oversampledPeek dp.1 data, dp.2))
  match exceptMapList (fun dp => species6LikelihoodE st.iterations dp.1 data (draws dp.1.n)) peeked with
  | .error e => .error e
  | .ok likes =>
    let weighted := List.zipWith (fun dp like => (dp.1, dp.2 * like)) peeked likes
    let total := (weighted.map Prod.snd).sum
    let updated := weighted.map
      (fun dp => ({ dp.1 with params := addCounts dp.1.params data }, dp.2 / total))
    .ok { st with hypos := updated }

/-!  ## Helper lemmas -/

theorem sumSamples_succ (k : ℕ) (f : ℕ → List ℚ) (z : List ℚ) :
    sumSamples (k + 1) f z = vecAdd (sumSamples k f z) (f k) := by
  simp [sumSamples, List.range_succ]

theorem sumSamples_const_one (k : ℕ) (f : ℕ → List ℚ) (a b : ℚ)
    (hf : ∀ i, f i = [a]) : sumSamples k f [b] = [b + k * a] := by
  induction k with
  | zero => simp [sumSamples]
  | succ k ih =>
    rw [sumSamples_succ, ih, hf]
    simp only [vecAdd, List.zipWith]
    push_cast
    congr 1
    ring

theorem sumSamples_const_two (k : ℕ) (f : ℕ → List ℚ) (a1 a2 b1 b2 : ℚ)
    (hf : ∀ i, f i = [a1, a2]) :
    sumSamples k f [b1, b2] = [b1 + k * a1, b2 + k * a2] := by
  induction k with
  | zero => simp [sumSamples]
  | succ k ih =>
    rw [sumSamples_succ, ih, hf]
    simp only [vecAdd, List.zipWith]
    push_cast
    congr 1
    · ring
    · congr 1
      ring

theorem sum_map_div (l : List ℚ) (c : ℚ) : (l.map (· / c)).sum = l.sum / c := by
  simpa [div_eq_mul_inv] using List.sum_map_mul_right l id c⁻¹

theorem normalize_sum_eq_one (v : List ℚ) (h : v.sum ≠ 0) : (normalize v).sum = 1 := by
  unfold normalize
  rw [sum_map_div, div_self h]

theorem normalize_sum_eq_zero (v : List ℚ) (h : v.sum = 0) : (normalize v).sum = 0 := by
  unfold normalize
  rw [sum_map_div, h, zero_div]

theorem listMax_mem : ∀ (l : List ℚ), l ≠ [] → listMax l ∈ l
  | [], h => absurd rfl h
  | [x], _ => by simp [listMax]
  | x :: y :: l, _ => by
    rw [listMax]
    rcases max_cases x (listMax (y :: l)) with ⟨h1, _⟩ | ⟨h1, _⟩
    · rw [h1]
      exact List.mem_cons_self _ _
    · rw [h1]
      exact List.mem_cons_of_mem _ (listMax_mem (y :: l) (by simp))

theorem le_listMax : ∀ (l : List ℚ) (x : ℚ), x ∈ l → x ≤ listMax l
  | [], x, h => by simp at h
  | [a], x, h => by
    simp only [List.mem_singleton] at h
    simp [listMax, h]
  | a :: b :: l, x, h => by
    rw [listMax]
    rcases List.mem_cons.mp h with rfl | h2
    · exact le_max_left _ _
    · exact le_trans (le_listMax (b :: l) x h2) (le_max_right _ _)

theorem listMax_eq_of_mem_le (l : List ℚ) (c : ℚ) (hc : c ∈ l) (hle : ∀ x ∈ l, x ≤ c) :
    listMax l = c :=
  le_antisymm (hle _ (listMax_mem l (List.ne_nil_of_mem hc))) (le_listMax l c hc)

theorem logNormalize_listMax_eq_one (raws : List ℚ) (hne : raws ≠ [])
    (hpos : ∀ x ∈ raws, 0 < x) : listMax (logNormalize raws) = 1 := by
  have hM : listMax raws ∈ raws := listMax_mem raws hne
  have hMpos : 0 < listMax raws := hpos _ hM
  apply listMax_eq_of_mem_le
  · exact List.mem_map.mpr ⟨listMax raws, hM, div_self (ne_of_gt hMpos)⟩
  · intro x hx
    rcases List.mem_map.mp hx with ⟨y, hy, rfl⟩
    exact (div_le_one hMpos).mpr (le_listMax raws y hy)

theorem getD_mem_of_lt (l : List ℚ) (i : ℕ) (hi : i < l.length) : l.getD i 0 ∈ l := by
  rw [List.getD_eq_getElem _ _ hi]
  exact List.getElem_mem hi

theorem cumsumAt_pos (l : List ℚ) (hpos : ∀ g ∈ l, 0 < g) (i : ℕ) (hi : i < l.length) :
    0 < cumsumAt l i := by
  unfold cumsumAt cumsum
  rw [List.getD_eq_getElem _ _ (by simpa using hi)]
  simp only [List.getElem_map, List.getElem_range]
  apply List.sum_pos
  · intro x hx
    exact hpos x (List.take_subset _ _ hx)
  · intro hcon
    have h0 : (l.take (i + 1)).length = 0 := by rw [hcon]; rfl
    rw [List.length_take] at h0
    omega

theorem species2Raw_pos (gammas : List ℚ) (data : List ℕ) (n : ℕ)
    (hpos : ∀ g ∈ gammas, 0 < g) (hm : data.length ≤ gammas.length)
    (hn1 : 1 ≤ n) (hn2 : n ≤ gammas.length) :
    0 < species2Raw gammas data n := by
  unfold species2Raw
  apply List.prod_pos
  intro a ha
  rcases List.mem_map.mp ha with ⟨i, hi, rfl⟩
  have hilt : i < gammas.length := lt_of_lt_of_le (List.mem_range.mp hi) hm
  exact pow_pos (div_pos (hpos _ (getD_mem_of_lt _ _ hilt))
    (cumsumAt_pos gammas hpos (n - 1) (by omega))) _

theorem species5Raw_pos (gammas : List ℚ) (m count n : ℕ)
    (hpos : ∀ g ∈ gammas, 0 < g)
    (hm1 : 1 ≤ m) (hm2 : m ≤ gammas.length)
    (hn1 : 1 ≤ n) (hn2 : n ≤ gammas.length) :
    0 < species5Raw gammas m count n := by
  unfold species5Raw
  exact pow_pos (div_pos (hpos _ (getD_mem_of_lt _ _ (by omega)))
    (cumsumAt_pos gammas hpos (n - 1) (by omega))) _

/-!  ## Claim C5 -/

/-- Claim C5: in every vectorized per-draw likelihood computation
(`Species2.SampleLikelihood`, `Species3.SampleLikelihood`,
`Species5.SampleLikelihood`), the per-candidate log-likelihoods have their
maximum subtracted before exponentiating, so before any correction factor the
largest exponentiated value in each draw is exactly 1. The last three
conjuncts identify the stabilized vectors inside the three computations. -/
theorem C5_max_log_normalization (ns data : List ℕ) (gammas : List ℚ) (m count : ℕ)
    (hne : ns ≠ []) (hpos : ∀ g ∈ gammas, 0 < g)
    (hrange : ∀ n ∈ ns, 1 ≤ n ∧ n ≤ gammas.length)
    (hm : data.length ≤ gammas.length)
    (hm1 : 1 ≤ m) (hm2 : m ≤ gammas.length) :
    listMax (logNormalize (ns.map (species2Raw gammas data))) = 1 ∧
    listMax (logNormalize (ns.map (species5Raw gammas m count))) = 1 ∧
    species2SampleLikelihood ns data gammas =
      List.zipWith (fun like n => like * (Nat.choose n data.length : ℚ))
        (logNormalize (ns.map (species2Raw gammas data))) ns ∧
    species3SampleLikelihood ns data gammas = species2SampleLikelihood ns data gammas ∧
    species5SampleLikelihood ns m count gammas =
      logNormalize (ns.map (species5Raw gammas m count)) := by
  refine ⟨?_, ?_, rfl, rfl, rfl⟩
  · apply logNormalize_listMax_eq_one
    · simpa using hne
    · intro x hx
      rcases List.mem_map.mp hx with ⟨n, hn, rfl⟩
      exact species2Raw_pos gammas data n hpos hm (hrange n hn).1 (hrange n hn).2
  · apply logNormalize_listMax_eq_one
    · simpa using hne
    · intro x hx
      rcases List.mem_map.mp hx with ⟨n, hn, rfl⟩
      exact species5Raw_pos gammas m count n hpos hm1 hm2 (hrange n hn).1 (hrange n hn).2

/-- Witness for C5 at `ns = [1]`, `data = [1]`, `gammas = [1]`, `m = count = 1`. -/
theorem C5_max_log_normalization_witness :
    (([1] : List ℕ) ≠ [] ∧ (∀ g ∈ ([1] : List ℚ), 0 < g)) ∧
      listMax (logNormalize (([1] : List ℕ).map (species2Raw [1] [1]))) = 1 ∧
      listMax (logNormalize (([1] : List ℕ).map (species5Raw [1] 1 1))) = 1 :=
  have h := C5_max_log_normalization [1] [1] [1] 1 1 (by decide) (by decide)
    (by decide) (by decide) (by decide) (by decide)
  ⟨⟨by decide, by decide⟩, h.1, h.2.1⟩

/-!  ## Claim C7 -/

/-- Claim C7 fails on `Species2`: its `Update` accumulates the hard-coded
`range(1000)` Monte-Carlo draws, ignoring the configured iteration count.
First conjunct: constructed with `iterations = 100`, an update on `data = [1]`
with unit draws accumulates 1000 unit likelihoods, not 100. Second conjunct:
the posterior state of `Species2.Update` does not depend on the configured
iteration count at all. -/
theorem C7_species2_ignores_iteration_count :
    species2LikeSum (species2Init [1] 100) [1] (fun _ => [1]) = [1000] ∧
    (∀ (ns data : List ℕ) (draws : ℕ → List ℚ) (k1 k2 : ℕ),
      (species2Update (species2Init ns k1) data draws).probs =
        (species2Update (species2Init ns k2) data draws).probs ∧
      (species2Update (species2Init ns k1) data draws).params =
        (species2Update (species2Init ns k2) data draws).params) := by
  constructor
  · have hsample : species2SampleLikelihood [1] [1] [1] = [1] := by
      norm_num [species2SampleLikelihood, species2Raw, logNormalize, listMax,
        cumsumAt, cumsum, List.range_succ]
    have : species2LikeSum (species2Init [1] 100) [1] (fun _ => [1]) =
        sumSamples 1000 (fun _ => species2SampleLikelihood [1] [1] [1]) [0] := rfl
    rw [this, sumSamples_const_one 1000 _ 1 0 (fun _ => hsample)]
    norm_num
  · exact fun ns data draws k1 k2 => ⟨rfl, rfl⟩

/-!  ## Claim C1 -/

/-- Claim C1 counterexample: on the 3-category model (`ns = [3]`, flat prior),
after `Update([3,2,1])` the marginal of coordinate 0 is `Beta(4, 5)`
(= `Beta(params[0], sum(params) - params[0])` with `params = [4,3,2]`),
not the claimed `Beta(1+data[0], 1+sum(data)-data[0]) = Beta(4, 4)`. -/
theorem C1_marginal_beta_counterexample :
    species2MarginalBeta
      (species2Update (species2Init [3] 1000) [3, 2, 1] (fun _ => [1, 1, 1])) 3 0 ≠
      ⟨1 + 3, 1 + (3 + 2 + 1) - 3⟩ := by
  decide

/-- Claim C1 amended: for the fixed 3-category model with flat prior, after
`Update(data)` the marginal of coordinate `i` is exactly
`Beta(1 + data[i], (N - 1) + sum(data) - data[i])`, i.e. the second parameter is
`2 + sum(data) - data[i]` for `N = 3` (closed form, no Monte-Carlo error). -/
theorem C1_marginal_beta_amended (d0 d1 d2 : ℕ) (i : ℕ) (hi : i < 3)
    (k : ℕ) (draws : ℕ → List ℚ) :
    species2MarginalBeta (species2Update (species2Init [3] k) [d0, d1, d2] draws) 3 i =
      ⟨1 + ([d0, d1, d2].getD i 0 : ℤ),
        2 + ((d0 : ℤ) + d1 + d2) - ([d0, d1, d2].getD i 0 : ℤ)⟩ := by
  interval_cases i <;>
    simp [species2MarginalBeta, species2Update, species2Init, addCounts,
      List.replicate, BetaDist.mk.injEq] <;> ring

/-- Witness for the amended claim C1 at `data = [3,2,1]`, coordinate 0:
the marginal is `Beta(4, 5)`. -/
theorem C1_marginal_beta_amended_witness :
    (0 : ℕ) < 3 ∧
      species2MarginalBeta
        (species2Update (species2Init [3] 1000) [3, 2, 1] (fun _ => [1, 1, 1])) 3 0 =
        ⟨1 + 3, 2 + (3 + 2 + 1) - 3⟩ :=
  ⟨by decide, C1_marginal_beta_amended 3 2 1 0 (by decide) 1000 (fun _ => [1, 1, 1])⟩

/-!  ## Evaluation lemmas for concrete witnesses (1000-draw loops in closed form) -/

theorem eval_sample_unit : species2SampleLikelihood [1] [1] [1] = [1] := by
  norm_num [species2SampleLikelihood, species2Raw, logNormalize, listMax,
    cumsumAt, cumsum, List.range_succ]

theorem eval_sample5_unit : species5SampleLikelihood [1] 1 1 [1] = [1] := by
  norm_num [species5SampleLikelihood, species5Raw, logNormalize, listMax,
    cumsumAt, cumsum, List.range_succ]

theorem eval_likeSum_unit (k : ℕ) :
    species2LikeSum (species2Init [1] k) [1] (fun _ => [1]) = [1000] := by
  have h : species2LikeSum (species2Init [1] k) [1] (fun _ => [1]) =
      sumSamples 1000 (fun _ => species2SampleLikelihood [1] [1] [1]) [0] := rfl
  rw [h, sumSamples_const_one 1000 _ 1 0 (fun _ => eval_sample_unit)]
  norm_num

theorem eval_sample_zero : species2SampleLikelihood [3] [3, 2, 1] [0, 0, 0] = [0] := by
  norm_num [species2SampleLikelihood, species2Raw, logNormalize, listMax,
    cumsumAt, cumsum, List.range_succ]

theorem eval_likeSum_zero (k : ℕ) :
    species2LikeSum (species2Init [3] k) [3, 2, 1] (fun _ => [0, 0, 0]) = [0] := by
  have h : species2LikeSum (species2Init [3] k) [3, 2, 1] (fun _ => [0, 0, 0]) =
      sumSamples 1000 (fun _ => species2SampleLikelihood [3] [3, 2, 1] [0, 0, 0]) [0] := rfl
  rw [h, sumSamples_const_one 1000 _ 0 0 (fun _ => eval_sample_zero)]
  norm_num

theorem eval_sample_infeasible :
    species2SampleLikelihood [2, 3] [3, 2, 1] [1, 1, 1] = [0, 64 / 729] := by
  norm_num [species2SampleLikelihood, species2Raw, logNormalize, listMax,
    cumsumAt, cumsum, List.range_succ, max_def]

theorem eval_likeSum_infeasible (k : ℕ) :
    species2LikeSum (species2Init [2, 3] k) [3, 2, 1] (fun _ => [1, 1, 1]) =
      [0, 64000 / 729] := by
  have h : species2LikeSum (species2Init [2, 3] k) [3, 2, 1] (fun _ => [1, 1, 1]) =
      sumSamples 1000 (fun _ => species2SampleLikelihood [2, 3] [3, 2, 1] [1, 1, 1]) [0, 0] := rfl
  rw [h, sumSamples_const_two 1000 _ 0 (64 / 729) 0 0 (fun _ => eval_sample_infeasible)]
  norm_num

/-!  ## Length and index bookkeeping -/

theorem length_species2SampleLikelihood (ns data : List ℕ) (gammas : List ℚ) :
    (species2SampleLikelihood ns data gammas).length = ns.length := by
  simp [species2SampleLikelihood, logNormalize]

theorem length_species3SampleLikelihood (ns data : List ℕ) (gammas : List ℚ) :
    (species3SampleLikelihood ns data gammas).length = ns.length :=
  length_species2SampleLikelihood ns data gammas

theorem length_species5SampleLikelihood (ns : List ℕ) (m count : ℕ) (gammas : List ℚ) :
    (species5SampleLikelihood ns m count gammas).length = ns.length := by
  simp [species5SampleLikelihood, logNormalize]

theorem sumSamples_length (k : ℕ) (f : ℕ → List ℚ) (z : List ℚ) (n : ℕ)
    (hz : z.length = n) (hf : ∀ i, (f i).length = n) :
    (sumSamples k f z).length = n := by
  induction k with
  | zero => simpa [sumSamples] using hz
  | succ k ih =>
    rw [sumSamples_succ]
    simp [vecAdd, ih, hf]

theorem length_species2LikeSum (st : Species2State) (data : List ℕ) (draws : ℕ → List ℚ) :
    (species2LikeSum st data draws).length = st.ns.length :=
  sumSamples_length _ _ _ _ (by simp)
    (fun i => length_species2SampleLikelihood st.ns data (draws i))

theorem length_species5CorrectedLikes (st : Species2State) (m count : ℕ)
    (draws : ℕ → List ℚ) :
    (species5CorrectedLikes st m count draws).length = st.ns.length := by
  unfold species5CorrectedLikes
  rw [List.length_zipWith]
  rw [sumSamples_length _ _ _ st.ns.length (List.length_replicate _ _)
    (fun i => length_species5SampleLikelihood st.ns m count (draws i))]
  exact min_self st.ns.length

theorem getD_zipWith_q (f : ℚ → ℕ → ℚ) :
    ∀ (a : List ℚ) (b : List ℕ) (i : ℕ), i < a.length → i < b.length →
      (List.zipWith f a b).getD i 0 = f (a.getD i 0) (b.getD i 0)
  | [], _, i, h, _ => by simp at h
  | _ :: _, [], i, _, h => by simp at h
  | x :: a, y :: b, 0, _, _ => by simp [List.zipWith]
  | x :: a, y :: b, i + 1, h1, h2 => by
    simp only [List.zipWith, List.getD_cons_succ]
    exact getD_zipWith_q f a b i (by simpa using h1) (by simpa using h2)

/-!  ## Suite normalization lemmas -/

theorem suiteUpdate_snd_div (w : List (Dirichlet × ℚ)) (t : ℚ) :
    ((w.map (fun dp => (dp.1, dp.2 / t))).map Prod.snd).sum = (w.map Prod.snd).sum / t := by
  rw [List.map_map]
  rw [show (Prod.snd ∘ fun dp : Dirichlet × ℚ => (dp.1, dp.2 / t)) =
    ((· / t) ∘ Prod.snd) from rfl]
  rw [← List.map_map, sum_map_div]

theorem suiteUpdate_snd_sum (hypos : List (Dirichlet × ℚ)) (like : Dirichlet → ℚ)
    (h : (hypos.map (fun dp => dp.2 * like dp.1)).sum ≠ 0) :
    ((suiteUpdate hypos like).map Prod.snd).sum = 1 := by
  unfold suiteUpdate
  rw [suiteUpdate_snd_div]
  have hmm : ((hypos.map (fun dp => (dp.1, dp.2 * like dp.1))).map Prod.snd) =
      hypos.map (fun dp => dp.2 * like dp.1) := by
    rw [List.map_map]
    rfl
  rw [hmm, div_self h]

/-!  ## Claim C2 -/

/-- Claim C2: for every suite variant, after any `Update` (or `UpdateOne`)
that returns with a nonzero normalizer, the outer weights over candidate N —
as packaged by `DistOfN` — sum to exactly 1 (exact rational arithmetic
replaces the claim's floating-point tolerance). The five conjuncts cover
`Species2.Update`, `Species3.Update`, `Species5.UpdateOne` (and hence every
step of `Species5.Update`), the `Species.Update` reweighting, and the
per-category `Species4` update step; `Species6.Update` never returns (its
update always raises, see the C10 theorem). -/
theorem C2_outer_weights_sum_to_one :
    (∀ (st : Species2State) (data : List ℕ) (draws : ℕ → List ℚ),
      (vecMul st.probs (species2LikeSum st data draws)).sum ≠ 0 →
      ((species2DistOfN (species2Update st data draws)).map Prod.snd).sum = 1) ∧
    (∀ (st : Species2State) (data : List ℕ) (draws : ℕ → List ℚ),
      (vecMul st.probs (sumSamples st.iterations
        (fun i => species3SampleLikelihood st.ns data (draws i))
        (List.replicate st.ns.length 0))).sum ≠ 0 →
      ((species2DistOfN (species3Update st data draws)).map Prod.snd).sum = 1) ∧
    (∀ (st : Species2State) (m count : ℕ) (draws : ℕ → List ℚ),
      (vecMul st.probs (species5CorrectedLikes st m count draws)).sum ≠ 0 →
      ((species2DistOfN (species5UpdateOne st m count draws)).map Prod.snd).sum = 1) ∧
    (∀ (st : SpeciesState) (data : List ℕ) (draws : ℕ → ℕ → List ℚ),
      (st.hypos.map
        (fun dp => dp.2 * speciesLikelihood st.iterations dp.1 data (draws dp.1.n))).sum ≠ 0 →
      ((speciesUpdate st data draws).hypos.map Prod.snd).sum = 1) ∧
    (∀ (st : SpeciesState) (one : List ℕ) (draws : ℕ → ℕ → List ℚ),
      (st.hypos.map
        (fun dp => dp.2 * species4Likelihood st.iterations dp.1 one (draws dp.1.n))).sum ≠ 0 →
      ((species4UpdateStep st one draws).hypos.map Prod.snd).sum = 1) := by
  refine ⟨?_, ?_, ?_, ?_, ?_⟩
  · intro st data draws h
    have hlen : (normalize (vecMul st.probs (species2LikeSum st data draws))).length ≤
        st.ns.length := by
      simp only [normalize, List.length_map, vecMul, List.length_zipWith,
        length_species2LikeSum]
      exact min_le_right _ _
    show ((st.ns.zip (normalize (vecMul st.probs (species2LikeSum st data draws)))).map
      Prod.snd).sum = 1
    rw [List.map_snd_zip _ _ hlen]
    exact normalize_sum_eq_one _ h
  · intro st data draws h
    have hlen : (normalize (vecMul st.probs (sumSamples st.iterations
        (fun i => species3SampleLikelihood st.ns data (draws i))
        (List.replicate st.ns.length 0)))).length ≤ st.ns.length := by
      simp only [normalize, List.length_map, vecMul, List.length_zipWith]
      rw [sumSamples_length _ _ _ st.ns.length (List.length_replicate _ _)
        (fun i => length_species3SampleLikelihood st.ns data (draws i))]
      exact min_le_right _ _
    show ((st.ns.zip (normalize (vecMul st.probs (sumSamples st.iterations
      (fun i => species3SampleLikelihood st.ns data (draws i))
      (List.replicate st.ns.length 0))))).map Prod.snd).sum = 1
    rw [List.map_snd_zip _ _ hlen]
    exact normalize_sum_eq_one _ h
  · intro st m count draws h
    have hlen : (normalize (vecMul st.probs (species5CorrectedLikes st m count draws))).length ≤
        st.ns.length := by
      simp only [normalize, List.length_map, vecMul, List.length_zipWith,
        length_species5CorrectedLikes]
      exact min_le_right _ _
    show ((st.ns.zip (normalize (vecMul st.probs (species5CorrectedLikes st m count draws)))).map
      Prod.snd).sum = 1
    rw [List.map_snd_zip _ _ hlen]
    exact normalize_sum_eq_one _ h
  · intro st data draws h
    show (((suiteUpdate st.hypos
      (fun d => speciesLikelihood st.iterations d data (draws d.n))).map
        (fun dp => ({ dp.1 with params := addCounts dp.1.params data }, dp.2))).map
        Prod.snd).sum = 1
    rw [List.map_map]
    exact suiteUpdate_snd_sum _ _ h
  · intro st one draws h
    show (((suiteUpdate st.hypos
      (fun d => species4Likelihood st.iterations d one (draws d.n))).map
        (fun dp => ({ dp.1 with params := addCounts dp.1.params one }, dp.2))).map
        Prod.snd).sum = 1
    rw [List.map_map]
    exact suiteUpdate_snd_sum _ _ h

/-- Witness for C2: concrete states, data and draws for the variants;
every normalizer is nonzero and every posterior weight vector sums to 1. -/
theorem C2_outer_weights_sum_to_one_witness :
    ((vecMul (species2Init [1] 7).probs
        (species2LikeSum (species2Init [1] 7) [1] (fun _ => [1]))).sum ≠ 0 ∧
      ((species2DistOfN (species2Update (species2Init [1] 7) [1] (fun _ => [1]))).map
        Prod.snd).sum = 1) ∧
    ((vecMul (species2Init [1] 7).probs (species5CorrectedLikes (species2Init [1] 7) 1 1
        (fun _ => [1]))).sum ≠ 0 ∧
      ((species2DistOfN (species5UpdateOne (species2Init [1] 7) 1 1 (fun _ => [1]))).map
        Prod.snd).sum = 1) ∧
    (((SpeciesState.mk [(dirichletInit 1, 1)] 2).hypos.map
        (fun dp => dp.2 * speciesLikelihood 2 dp.1 [1] (fun _ => [1]))).sum ≠ 0 ∧
      ((speciesUpdate (SpeciesState.mk [(dirichletInit 1, 1)] 2) [1]
        (fun _ _ => [1])).hypos.map Prod.snd).sum = 1) ∧
    ((SpeciesState.mk [(dirichletInit 1, 1)] 2).hypos.map
        (fun dp => dp.2 * species4Likelihood 2 dp.1 [1] (fun _ => [1]))).sum ≠ 0 ∧
      ((species4UpdateStep (SpeciesState.mk [(dirichletInit 1, 1)] 2) [1]
        (fun _ _ => [1])).hypos.map Prod.snd).sum = 1 := by
  have h2 : (vecMul (species2Init [1] 7).probs
      (species2LikeSum (species2Init [1] 7) [1] (fun _ => [1]))).sum ≠ 0 := by
    rw [eval_likeSum_unit]
    norm_num [species2Init, vecMul]
  have hc5 : species5CorrectedLikes (species2Init [1] 7) 1 1 (fun _ => [1]) = [7] := by
    have h0 : sumSamples 7 (fun _ => species5SampleLikelihood [1] 1 1 [1]) [0] = [7] := by
      rw [sumSamples_const_one 7 _ 1 0 (fun _ => eval_sample5_unit)]
      norm_num
    show List.zipWith (fun like (n : ℕ) => like * ((n : ℚ) - (((1 : ℕ)) : ℚ) + 1))
      (sumSamples 7 (fun _ => species5SampleLikelihood [1] 1 1 [1]) [0]) [1] = [7]
    rw [h0]
    show [(7 : ℚ) * (((1 : ℕ) : ℚ) - ((1 : ℕ) : ℚ) + 1)] = [7]
    norm_num
  have h5 : (vecMul (species2Init [1] 7).probs
      (species5CorrectedLikes (species2Init [1] 7) 1 1 (fun _ => [1]))).sum ≠ 0 := by
    rw [hc5]
    norm_num [species2Init, vecMul]
  have hS : ((SpeciesState.mk [(dirichletInit 1, 1)] 2).hypos.map
      (fun dp => dp.2 * speciesLikelihood 2 dp.1 [1] (fun _ => [1]))).sum ≠ 0 := by
    norm_num [speciesLikelihood, dirichletLikelihood, dirichletInit, List.range_succ]
  have hS4 : ((SpeciesState.mk [(dirichletInit 1, 1)] 2).hypos.map
      (fun dp => dp.2 * species4Likelihood 2 dp.1 [1] (fun _ => [1]))).sum ≠ 0 := by
    norm_num [species4Likelihood, dirichletLikelihood, dirichletInit, List.range_succ]
  refine ⟨⟨h2, ?_⟩, ⟨h5, ?_⟩, ⟨hS, ?_⟩, hS4, ?_⟩
  · exact C2_outer_weights_sum_to_one.1 _ _ _ h2
  · exact C2_outer_weights_sum_to_one.2.2.1 _ _ _ _ h5
  · have := C2_outer_weights_sum_to_one.2.2.2.1 (SpeciesState.mk [(dirichletInit 1, 1)] 2)
      [1] (fun _ _ => [1])
    exact this (by simpa using hS)
  · have := C2_outer_weights_sum_to_one.2.2.2.2 (SpeciesState.mk [(dirichletInit 1, 1)] 2)
      [1] (fun _ _ => [1])
    exact this (by simpa using hS4)

/-!  ## Claim C3 -/

theorem zipWith_mul_flip (c : ℕ → ℚ) :
    ∀ (a : List ℚ) (b : List ℕ),
      List.zipWith (fun like (n : ℕ) => like * c n) a b =
        List.zipWith (fun (n : ℕ) like => c n * like) b a
  | [], [] => rfl
  | [], _ :: _ => rfl
  | _ :: _, [] => rfl
  | x :: a, y :: b => by
    simp only [List.zipWith_cons_cons]
    rw [mul_comm, zipWith_mul_flip c a b]

theorem species5_step_eq (s : Species2State) (i count : ℕ) (draws : ℕ → List ℚ) :
    ({ species5UpdateOne s (i + 1) count draws with
        params := bump (species5UpdateOne s (i + 1) count draws).params i count }) =
      claimStep5 s (i + 1) count draws := by
  unfold claimStep5 species5UpdateOne species5CorrectedLikes
  simp only [Nat.add_sub_cancel]
  congr 1
  exact congrArg (fun v => normalize (vecMul s.probs v)) (zipWith_mul_flip _ _ _)

theorem length_oneVec (i c : ℕ) : (oneVec i c).length = i + 1 := by
  simp [oneVec]

theorem addCounts_oneVec : ∀ (params : List ℕ) (i c : ℕ),
    addCounts params (oneVec i c) = bump params i c
  | [], i, c => by
    cases i <;> simp [oneVec, addCounts, bump]
  | p :: ps, 0, c => by
    simp [oneVec, addCounts, bump]
  | p :: ps, i + 1, c => by
    have h : oneVec (i + 1) c = 0 :: oneVec i c := by
      simp [oneVec, List.replicate_succ]
    rw [h]
    show (p + 0) :: addCounts ps (oneVec i c) = bump (p :: ps) (i + 1) c
    rw [addCounts_oneVec ps i c]
    simp [bump, List.getD_cons_succ]

theorem species4_step_eq (s : SpeciesState) (i count : ℕ) (draws : ℕ → ℕ → List ℚ) :
    species4UpdateStep s (oneVec i count) draws = claimStep4 s i count draws := by
  unfold species4UpdateStep claimStep4 species4Likelihood
  have hL : (fun d : Dirichlet => (((List.range s.iterations).map
      (fun j => dirichletLikelihood (oneVec i count) (draws d.n j))).sum)
        * ((d.n : ℚ) - ((oneVec i count).length : ℚ) + 1)) =
      (fun d : Dirichlet => (((List.range s.iterations).map
      (fun j => dirichletLikelihood (oneVec i count) (draws d.n j))).sum)
        * ((d.n : ℚ) - ((i : ℚ) + 1) + 1)) := by
    funext d
    rw [length_oneVec]
    push_cast
    ring
  rw [hL]
  have hmap : ∀ (R : List (Dirichlet × ℚ)),
      R.map (fun dp => ({ dp.1 with params := addCounts dp.1.params (oneVec i count) }, dp.2)) =
        R.map (fun dp => ({ dp.1 with params := bump dp.1.params i count }, dp.2)) := by
    intro R
    apply List.map_congr_left
    intro dp _
    rw [addCounts_oneVec]
  simp only [hmap]

/-- Claim C3: both incremental variants process the batch one observed
category at a time; the code's updates coincide, state for state, with the
claim's reading (`claimUpdate5` / `claimUpdate4`): at step `m` every candidate
N's accumulated likelihood is multiplied by the unseen-species factor
`(N - m + 1)`, and only after that step's reweighting is the concentration
state updated, and only at the revealed coordinate by that category's count. -/
theorem C3_incremental_one_category_at_a_time :
    (∀ (st : Species2State) (data : List ℕ) (draws : ℕ → ℕ → List ℚ),
      species5Update st data draws = claimUpdate5 st data draws) ∧
    (∀ (st : SpeciesState) (data : List ℕ) (draws : ℕ → ℕ → ℕ → List ℚ),
      species4Update st data draws = claimUpdate4 st data draws) := by
  constructor
  · intro st data draws
    unfold species5Update claimUpdate5
    apply List.foldl_ext
    intro s i _
    exact species5_step_eq s i (data.getD i 0) (draws i)
  · intro st data draws
    unfold species4Update claimUpdate4
    apply List.foldl_ext
    intro s i _
    exact species4_step_eq s i (data.getD i 0) (draws i)

/-!  ## Claim C4 -/

theorem trimMarginal_fst (pmf : List (ℚ × ℚ)) (lo hi : ℚ) :
    (trimMarginal pmf lo hi).1 = retainedMass pmf lo hi := by
  have hb : ∀ a : ℚ × ℚ, (!(decide (a.1 < lo) || decide (hi < a.1))) =
      (decide (lo ≤ a.1) && decide (a.1 ≤ hi)) := by
    intro a
    have e1 : decide (a.1 < lo) = !decide (lo ≤ a.1) := by
      rw [← decide_not, decide_eq_decide]
      exact not_le.symm
    have e2 : decide (hi < a.1) = !decide (a.1 ≤ hi) := by
      rw [← decide_not, decide_eq_decide]
      exact not_le.symm
    rw [e1, e2]
    cases decide (lo ≤ a.1) <;> cases decide (a.1 ≤ hi) <;> rfl
  show ((pmf.filter (fun vw => !(decide (vw.1 < lo) || decide (hi < vw.1)))).map
      Prod.snd).sum =
    ((pmf.filter (fun vw => decide (lo ≤ vw.1) && decide (vw.1 ≤ hi))).map Prod.snd).sum
  exact congrArg List.sum (congrArg (List.map Prod.snd)
    (List.filter_congr (fun a _ => hb a)))

/-- Claim C4: for every model state and data batch, after `Peek(data)` the
likelihood equals the plain Dirichlet Monte-Carlo likelihood of the batch
times the stored importance weight; that weight equals the product over all
stick-breaking prior conditional tables of the probability mass retained when
each is truncated to the 2nd-98th percentile interval of the corresponding
would-be posterior marginal computed from `params + data`; and the peek does
not commit the parameter update. -/
theorem C4_importance_weight (d : OversampledDirichlet) (data : List ℕ)
    (gammas : List ℚ) :
    oversampledLikelihood (oversampledPeek d data) data gammas =
      dirichletLikelihood data gammas * (oversampledPeek d data).weight ∧
    (oversampledPeek d data).weight = claimImportanceWeight d.params data ∧
    (oversampledPeek d data).params = d.params := by
  refine ⟨rfl, ?_, rfl⟩
  show ((((makeConditionals d.params).map (fun ab => betaMakePmf ab.1 ab.2 101)).zip
      (((makeMarginals (addCounts d.params data)).map
        (fun ab => pmfPercentile (betaMakePmf ab.1 ab.2 101) 2)).zip
       ((makeMarginals (addCounts d.params data)).map
        (fun ab => pmfPercentile (betaMakePmf ab.1 ab.2 101) 98)))).map
          (fun t => trimMarginal t.1 t.2.1 t.2.2)).foldl (fun acc mt => acc * mt.1) 1 =
      claimImportanceWeight d.params data
  unfold claimImportanceWeight
  rw [List.foldl_map, List.prod_eq_foldl, List.foldl_map]
  apply List.foldl_ext
  intro acc t _
  rw [trimMarginal_fst]

/-!  ## Claim C6 -/

/-- Claim C6 counterexample: with 2 iterations and unit Gamma draws on the
flat 3-category hypothesis, `Species.Likelihood` returns `2/729` — the SUM of
the two draws times `C(3,3)` — not the claimed average-based value `1/729`. -/
theorem C6_counterexample :
    speciesLikelihood 2 (dirichletInit 3) [3, 2, 1] (fun _ => [1, 1, 1]) ≠
      ((((List.range 2).map (fun _ => dirichletLikelihood [3, 2, 1] [1, 1, 1])).sum / 2)
        * (Nat.choose 3 3 : ℚ)) := by
  norm_num [speciesLikelihood, dirichletLikelihood, dirichletInit, List.range_succ]

theorem suiteUpdate_eq (hypos : List (Dirichlet × ℚ)) (L : Dirichlet → ℚ) :
    suiteUpdate hypos L =
      hypos.map (fun dp => (dp.1, dp.2 * L dp.1 /
        (hypos.map (fun dp => dp.2 * L dp.1)).sum)) := by
  show (hypos.map (fun dp => (dp.1, dp.2 * L dp.1))).map
      (fun dp => (dp.1, dp.2 /
        ((hypos.map (fun dp => (dp.1, dp.2 * L dp.1))).map Prod.snd).sum)) = _
  have hsnd : ((hypos.map (fun dp => (dp.1, dp.2 * L dp.1))).map Prod.snd) =
      hypos.map (fun dp => dp.2 * L dp.1) := by
    rw [List.map_map]
    rfl
  rw [hsnd, List.map_map]
  rfl

theorem suiteUpdate_scale (hypos : List (Dirichlet × ℚ)) (like : Dirichlet → ℚ)
    (c : ℚ) (hc : c ≠ 0) :
    suiteUpdate hypos (fun d => c * like d) = suiteUpdate hypos like := by
  simp only [suiteUpdate_eq]
  have hsum : (hypos.map (fun dp => dp.2 * (c * like dp.1))).sum =
      c * (hypos.map (fun dp => dp.2 * like dp.1)).sum := by
    have hfun : (fun dp : Dirichlet × ℚ => dp.2 * (c * like dp.1)) =
        (fun dp : Dirichlet × ℚ => c * (dp.2 * like dp.1)) := by
      funext dp
      ring
    rw [hfun]
    exact List.sum_map_mul_left hypos (fun dp => dp.2 * like dp.1) c
  rw [hsum]
  apply List.map_congr_left
  intro dp _
  have hnum : dp.2 * (c * like dp.1) = c * (dp.2 * like dp.1) := by ring
  rw [hnum, mul_div_mul_left _ _ hc]

/-- Claim C6 amended: `Species.Likelihood` returns the SUM over `iterations`
Monte-Carlo draws times `C(N, m)` — `iterations` times the claimed average.
The factor is constant across hypotheses and cancels in the suite's
renormalization (third conjunct), so the induced posterior matches the claimed
average formulation; and each hypothesis's Dirichlet model is updated with the
full batch only after the outer reweighting (second conjunct). -/
theorem C6_likelihood_sums_draws (st : SpeciesState) (data : List ℕ)
    (draws : ℕ → ℕ → List ℚ) (d : Dirichlet) (dr : ℕ → List ℚ)
    (hypos : List (Dirichlet × ℚ)) (like : Dirichlet → ℚ) (c : ℚ) (hc : c ≠ 0) :
    speciesLikelihood st.iterations d data dr =
      (((List.range st.iterations).map (fun i => dirichletLikelihood data (dr i))).sum)
        * (Nat.choose d.n data.length : ℚ) ∧
    (speciesUpdate st data draws).hypos =
      (suiteUpdate st.hypos (fun h => speciesLikelihood st.iterations h data (draws h.n))).map
        (fun dp => ({ dp.1 with params := addCounts dp.1.params data }, dp.2)) ∧
    suiteUpdate hypos (fun h => c * like h) = suiteUpdate hypos like :=
  ⟨rfl, rfl, suiteUpdate_scale hypos like c hc⟩

/-- Witness for the amended claim C6 with scale factor `c = 2`. -/
theorem C6_likelihood_sums_draws_witness :
    ((2 : ℚ) ≠ 0) ∧
      suiteUpdate [(dirichletInit 3, 1)] (fun _ => (2 : ℚ) * 1) =
        suiteUpdate [(dirichletInit 3, 1)] (fun _ => (1 : ℚ)) :=
  ⟨by norm_num, (C6_likelihood_sums_draws ⟨[(dirichletInit 3, 1)], 2⟩ [1] (fun _ _ => [1])
    (dirichletInit 3) (fun _ => [1]) [(dirichletInit 3, 1)] (fun _ => 1) 2
    (by norm_num)).2.2⟩

/-!  ## Claim C8 -/

/-- Claim C8 counterexample: a zero-likelihood update (all-zero Gamma draws,
the exact-arithmetic image of a float underflow) is NOT surfaced as an error:
`Species2.Update` completes normally and returns a state whose outer weight
vector is identically 0 (numpy: NaN entries) — a silently undefined
distribution, not an error. -/
theorem C8_counterexample :
    species2Update (species2Init [3] 7) [3, 2, 1] (fun _ => [0, 0, 0]) =
      ⟨[3], [0], [4, 3, 2], 7⟩ := by
  have h := eval_likeSum_zero 7
  show ({ species2Init [3] 7 with
           probs := normalize (vecMul (species2Init [3] 7).probs
             (species2LikeSum (species2Init [3] 7) [3, 2, 1] (fun _ => [0, 0, 0]))),
           params := addCounts (species2Init [3] 7).params [3, 2, 1] } : Species2State) = _
  rw [h]
  show ({ ns := [3], probs := normalize (vecMul [1] [0]),
           params := addCounts [1, 1, 1] [3, 2, 1], iterations := 7 } : Species2State) = _
  norm_num [normalize, vecMul, addCounts]

/-- Claim C8 amended: a zero outer-weight sum after an update is not surfaced
as an error; the renormalizing division executes regardless and `Update`
returns a state whose weights sum to 0 (numpy: NaN entries) — the caller must
guard the precondition, as the spec's failure policy states. -/
theorem C8_zero_sum_is_silent (st : Species2State) (data : List ℕ) (draws : ℕ → List ℚ)
    (h : (vecMul st.probs (species2LikeSum st data draws)).sum = 0) :
    (species2Update st data draws).probs.sum = 0 :=
  normalize_sum_eq_zero _ h

/-- Witness for the amended claim C8 at the all-zero-draw input. -/
theorem C8_zero_sum_is_silent_witness :
    (vecMul (species2Init [3] 7).probs
        (species2LikeSum (species2Init [3] 7) [3, 2, 1] (fun _ => [0, 0, 0]))).sum = 0 ∧
      (species2Update (species2Init [3] 7) [3, 2, 1] (fun _ => [0, 0, 0])).probs.sum = 0 := by
  have h0 : (vecMul (species2Init [3] 7).probs
      (species2LikeSum (species2Init [3] 7) [3, 2, 1] (fun _ => [0, 0, 0]))).sum = 0 := by
    rw [eval_likeSum_zero]
    show (vecMul [1] [0]).sum = 0
    norm_num [vecMul]
  exact ⟨h0, C8_zero_sum_is_silent _ _ _ h0⟩

/-!  ## Claim C9 -/

/-- Claim C9 counterexample: the candidate range [2,3] with batch [3,2,1]
(so m = 3 exceeds candidate 2) is accepted by the constructor and the first
update runs to completion — nothing is detected or rejected before the first
update. The infeasible candidate silently ends with posterior weight 0. -/
theorem C9_counterexample :
    species2Update (species2Init [2, 3] 5) [3, 2, 1] (fun _ => [1, 1, 1]) =
      ⟨[2, 3], [0, 1], [4, 3, 2], 5⟩ := by
  have h := eval_likeSum_infeasible 5
  show ({ species2Init [2, 3] 5 with
           probs := normalize (vecMul (species2Init [2, 3] 5).probs
             (species2LikeSum (species2Init [2, 3] 5) [3, 2, 1] (fun _ => [1, 1, 1]))),
           params := addCounts (species2Init [2, 3] 5).params [3, 2, 1] } : Species2State) = _
  rw [h]
  show ({ ns := [2, 3], probs := normalize (vecMul [1, 1] [0, 64000 / 729]),
           params := addCounts [1, 1, 1] [3, 2, 1], iterations := 5 } : Species2State) = _
  norm_num [normalize, vecMul, addCounts]

/-- Claim C9 amended: no range validation happens before (or at) the first
update; instead every candidate N smaller than the number of observed
categories receives sampled likelihood 0 in every draw — its binomial
coefficient `C(N, m)` vanishes — so it is silently zeroed out rather than
rejected with an error; the caller must guard the range, per the spec's
failure policy. -/
theorem C9_no_range_check (ns data : List ℕ) (gammas : List ℚ) (i : ℕ)
    (hi : i < ns.length) (hinf : ns.getD i 0 < data.length) :
    (species2SampleLikelihood ns data gammas).getD i 0 = 0 := by
  unfold species2SampleLikelihood
  rw [getD_zipWith_q _ _ _ _ (by simpa [logNormalize] using hi) hi]
  rw [Nat.choose_eq_zero_of_lt hinf]
  simp

/-- Witness for the amended claim C9 at range [2,3], batch [3,2,1]. -/
theorem C9_no_range_check_witness :
    ((0 : ℕ) < ([2, 3] : List ℕ).length ∧ ([2, 3] : List ℕ).getD 0 0 < ([3, 2, 1] : List ℕ).length) ∧
      (species2SampleLikelihood [2, 3] [3, 2, 1] [1, 1, 1]).getD 0 0 = 0 :=
  ⟨⟨by decide, by decide⟩,
    C9_no_range_check [2, 3] [3, 2, 1] [1, 1, 1] 0 (by decide) (by decide)⟩

/-!  ## Claim C10 -/

/-- Claim C10: for every nonempty candidate range and any data batch,
`Species6(ns).Update(data)` raises `AttributeError`: the constructor never
assigns `self.iterations`, and the inherited `Species.Likelihood` — invoked
by the parent-class update after the Peek phase — reads it before anything
else, so the restricted-sampling outer suite can never complete an update. -/
theorem C10_species6_update_raises (ns data : List ℕ) (draws : ℕ → ℕ → List ℚ)
    (hne : ns ≠ []) :
    species6Update (species6Init ns) data draws = .error attrErrorMsg := by
  rcases ns with _ | ⟨n, rest⟩
  · exact absurd rfl hne
  · unfold species6Update species6Init
    simp [exceptMapList, species6LikelihoodE]

/-- Witness for C10 at `ns = [3]`, `data = [1]`. -/
theorem C10_species6_update_raises_witness :
    (([3] : List ℕ) ≠ []) ∧
      species6Update (species6Init [3]) [1] (fun _ _ => [1, 1, 1]) = .error attrErrorMsg :=
  ⟨by decide, C10_species6_update_raises [3] [1] (fun _ _ => [1, 1, 1]) (by decide)⟩

end ThinkStats
